import Mathlib

/-!
Shallow embedding of the site-generation pipeline of `gcp-service-catalog`
(`main.go`): the record normalizer, the domain grouper, the page-job
planner with its per-job error policy, the sitemap builder and the
robots.txt builder.  Strings are Lean `String`s; Go byte-wise string
comparison coincides with Lean's order on the catalog's ASCII data.
Filesystem effects are modelled by an explicit action trace, and the
success/failure of each `os.Create` / `ExecuteTemplate` / `MkdirAll`
call by boolean oracles in an environment record.
-/

namespace GcpServiceCatalog

/-- `Service` from `main.go`: a simplified GCP service configuration.
`Domain` and `FileName` are derived fields, empty until the normalizer
fills them in. -/
structure Service where
  Name : String
  Title : String
  Documentation : String
  Domain : String
  FileName : String
deriving DecidableEq

/-- Character-wise model of Go `strings.ReplaceAll(s, old, new)` for
single-character `old`/`new` (a one-byte pattern cannot overlap itself,
so replacing all occurrences is a character map). -/
def replaceAllChar (s : String) (old new : Char) : String :=
  ⟨s.data.map fun c => if c = old then new else c⟩

/-- ASCII lowering of one character, as Go `unicode.ToLower` acts on the
ASCII range (the catalog's domain labels are ASCII). -/
def toLowerChar (c : Char) : Char :=
  if 65 ≤ c.toNat ∧ c.toNat ≤ 90 then Char.ofNat (c.toNat + 32) else c

/-- Model of Go `strings.ToLower`: character-wise lowering. -/
def goToLower (s : String) : String :=
  ⟨s.data.map toLowerChar⟩

/-- `urlSafe` from `main.go`: replace each space with a hyphen, then
lowercase. -/
def urlSafe (s : String) : String :=
  goToLower (replaceAllChar s ' ' '-')

/-- Model of Go `strings.TrimRight(s, "/")`: remove all trailing `/`. -/
def trimRightSlashes (s : String) : String :=
  ⟨(s.data.reverse.dropWhile (fun c => c = '/')).reverse⟩

/-- Character-level model of Go `strings.Split(s, ".")`: cut the
character list at every `.`.  `splitDot [] = [[]]`, matching Go's
`Split("", ".") = [""]`. -/
def splitDot : List Char → List (List Char)
  | [] => [[]]
  | c :: rest =>
    if c = '.' then [] :: splitDot rest
    else
      match splitDot rest with
      | [] => [[c]]
      | p :: ps => (c :: p) :: ps

/-- Character-level model of Go `strings.Join(parts, ".")`. -/
def joinDot : List (List Char) → List Char
  | [] => []
  | [p] => p
  | p :: ps => p ++ '.' :: joinDot ps

/-- The domain derived for a record whose `domain` field is absent
(`generateHTML`, lines 199–206): the last two dot-separated segments of
the name, or `"misc"` when the name splits into fewer than two. -/
def deriveDomain (name : String) : String :=
  let parts := splitDot name.data
  if parts.length > 1 then
    ⟨joinDot (parts.drop (parts.length - 2))⟩
  else
    "misc"

/-- The per-record body of the normalization loop in `generateHTML`
(lines 198–209): fill in `Domain` when empty and compute `FileName` by
replacing every `/` in the name with `-`. -/
def normalizeService (svc : Service) : Service :=
  { svc with
    Domain := if svc.Domain = "" then deriveDomain svc.Name else svc.Domain
    FileName := replaceAllChar svc.Name '/' '-' }

/-- One step of building the Go map `domainMap` (`generateHTML`, lines
212–215), modelled as an association list in key-insertion order:
`domainMap[d] = append(domainMap[d], svc)`. -/
def insertAppend : List (String × List Service) → String → Service → List (String × List Service)
  | [], d, svc => [(d, [svc])]
  | (k, vs) :: rest, d, svc =>
    if k = d then (k, vs ++ [svc]) :: rest
    else (k, vs) :: insertAppend rest d svc

/-- The Go map `domainMap` after the grouping loop (`generateHTML`,
lines 212–215). -/
def domainMapOf (services : List Service) : List (String × List Service) :=
  services.foldl (fun m svc => insertAppend m svc.Domain svc) []

/-- Reading the Go map at a key: the bound slice, or the empty slice
when the key is absent. -/
def lookupGroup (m : List (String × List Service)) (d : String) : List Service :=
  match m.find? (fun kv => kv.1 = d) with
  | some kv => kv.2
  | none => []

/-- The sorted domain list (`generateHTML`, lines 217–222): the keys of
`domainMap`, sorted with `sort.Strings`. -/
def domainsOf (services : List Service) : List String :=
  List.insertionSort (· ≤ ·) ((domainMapOf services).map Prod.fst)

/-- `SitemapURL` from `main.go`, restricted to the fields the generator
populates (`ChangeFreq`/`Priority` are always left empty). -/
structure SitemapURL where
  Loc : String
  LastMod : String
deriving DecidableEq

/-- `RobotsTxt` from `main.go`. -/
structure RobotsTxt where
  SitemapURL : String
  Disallow : List String
deriving DecidableEq

/-- The sitemap entry built for one walked file (`generateSitemap`,
lines 429–455): `relPath` is the path relative to the output root in
slash form, `lastMod` the formatted modification date. -/
def sitemapEntry (website relPath lastMod : String) : SitemapURL :=
  let urlPath := if relPath = "index.html" then "" else relPath
  let loc := website ++ "/" ++ urlPath
  let loc := if relPath = "index.html" then website ++ "/" else loc
  { Loc := loc, LastMod := lastMod }

/-- Go `filepath.Ext(name) == ".html"` for the base name of `relPath`:
since the separator `/` cannot occur inside `".html"`, this is exactly
a suffix test on the relative path. -/
def isHtmlFile (relPath : String) : Bool :=
  relPath.data.reverse.take 5 = ".html".data.reverse

/-- The sitemap URL list built by `generateSitemap` (lines 418–466) from
the walked files, each a `(relPath, modDate)` pair: keep `.html` files,
build an entry for each, and sort by `Loc` (`sort.Slice`, lines
464–466). -/
def sitemapURLs (website : String) (files : List (String × String)) : List SitemapURL :=
  List.insertionSort (fun u v => u.Loc ≤ v.Loc)
    ((files.filter (fun f => isHtmlFile f.1)).map (fun f => sitemapEntry website f.1 f.2))

/-- `generateSitemap` (lines 406–489): fail when the `WEBSITE`
environment value is empty (unset), otherwise strip trailing slashes
and produce the sorted URL list that is serialized into `sitemap.xml`.
The walked files are passed explicitly; file I/O around the XML write
is not modelled (the result is the content written). -/
def generateSitemap (website : String) (files : List (String × String)) : Except String (List SitemapURL) :=
  if website = "" then
    Except.error "environment variable 'WEBSITE' is not set"
  else
    Except.ok (sitemapURLs (trimRightSlashes website) files)

/-- `generateRobotsTxt` (lines 492–526): fail when the `WEBSITE`
environment value is empty, otherwise reference `<base>/sitemap.xml`
and disallow the fixed `/snippets/` prefix. -/
def generateRobotsTxt (website : String) : Except String RobotsTxt :=
  if website = "" then
    Except.error "environment variable 'WEBSITE' is not set"
  else
    Except.ok
      { SitemapURL := trimRightSlashes website ++ "/sitemap.xml"
        Disallow := ["/snippets/"] }

/-- The two fatal input failures of `generateHTML` (lines 186–195):
`os.ReadFile` on `services.json`, and `json.Unmarshal`. -/
inductive GenError where
  | readError (msg : String)
  | unmarshalError (msg : String)
deriving DecidableEq

/-- The error string `generateHTML` returns for each input failure. -/
def genErrorMsg : GenError → String
  | .readError m => "failed to read services.json: " ++ m
  | .unmarshalError m => "failed to unmarshal JSON: " ++ m

/-- Observable filesystem/log effects of `generateHTML`, in program
order. -/
inductive Action where
  | mkdir (path : String)
  | copiedCss
  | created (path : String)
  | rendered (path tmpl : String)
  | logError (msg : String)
  | wroteSitemap
  | wroteRobots
deriving DecidableEq

/-- Success/failure oracles for the effectful calls inside
`generateHTML`, plus the environment the sitemap/robots post-pass
reads: `createOk p` is the outcome of `os.Create p`, `execOk p` the
outcome of `ExecuteTemplate` into `p`, `walkFiles` the files that
`filepath.Walk` visits under the output root. -/
structure RenderEnv where
  mkdirOk : String → Bool
  copyOk : Bool
  tmplOk : Bool
  createOk : String → Bool
  execOk : String → Bool
  website : String
  walkFiles : List (String × String)

/-- Target path of a per-domain detail page (`generateHTML`, lines
332–333). -/
def domainPagePath (d : String) : String :=
  "html/domain/domain-" ++ urlSafe d ++ ".html"

/-- Target path of a per-service detail page (`generateHTML`, lines
352–353). -/
def servicePagePath (svc : Service) : String :=
  "html/service/" ++ svc.FileName ++ ".html"

/-- One fatal page job (home, services listing, domain index): a
create or template-execution failure returns an error that aborts
`generateHTML` (lines 257–265, 276–284, 310–318). -/
def fatalPageJob (env : RenderEnv) (path tmpl errCreate errExec : String) : List Action × Except String Unit :=
  if env.createOk path then
    if env.execOk path then ([.created path, .rendered path tmpl], .ok ())
    else ([.created path], .error errExec)
  else ([], .error errCreate)

/-- One iteration of the domain-detail loop (lines 324–346): failures
are logged and the loop continues. -/
def domainJobActions (env : RenderEnv) (d : String) : List Action :=
  if env.createOk (domainPagePath d) then
    if env.execOk (domainPagePath d) then
      [.created (domainPagePath d), .rendered (domainPagePath d) "domain.html"]
    else
      [.created (domainPagePath d), .logError ("Failed to execute domain template for " ++ d)]
  else
    [.logError ("Failed to create domain page for " ++ d)]

/-- One iteration of the service-detail loop (lines 351–366): failures
are logged and the loop continues. -/
def serviceJobActions (env : RenderEnv) (svc : Service) : List Action :=
  if env.createOk (servicePagePath svc) then
    if env.execOk (servicePagePath svc) then
      [.created (servicePagePath svc), .rendered (servicePagePath svc) "service.html"]
    else
      [.created (servicePagePath svc), .logError ("Failed to execute service template for " ++ svc.Name)]
  else
    [.logError ("Failed to create service page for " ++ svc.Name)]

/-- `generateHTML` (lines 185–379).  The input is the combined outcome
of reading and unmarshalling `services.json`; the output is the action
trace in program order together with the returned error, if any.
`copyFile` failure is `log.Fatalf` in the source, modelled as an
aborting error. -/
def generateHTML (env : RenderEnv) (input : Except GenError (List Service)) :
    List Action × Except String Unit :=
  match input with
  | .error e => ([], .error (genErrorMsg e))
  | .ok raw =>
    let services := raw.map normalizeService
    let domains := domainsOf services
    if ¬ env.mkdirOk "html" then ([], .error "failed to create html directory")
    else if ¬ env.mkdirOk "html/domain" then ([.mkdir "html"], .error "failed to create domain directory")
    else if ¬ env.mkdirOk "html/service" then
      ([.mkdir "html", .mkdir "html/domain"], .error "failed to create service directory")
    else if ¬ env.copyOk then
      ([.mkdir "html", .mkdir "html/domain", .mkdir "html/service"], .error "Error copying style.css")
    else if ¬ env.tmplOk then
      ([.mkdir "html", .mkdir "html/domain", .mkdir "html/service", .copiedCss],
        .error "failed to parse templates")
    else
      let dirActs : List Action := [.mkdir "html", .mkdir "html/domain", .mkdir "html/service", .copiedCss]
      match fatalPageJob env "html/index.html" "index.html"
          "failed to create home page" "failed to execute home template" with
      | (hActs, .error e) => (dirActs ++ hActs, .error e)
      | (hActs, .ok _) =>
        match fatalPageJob env "html/services.html" "services.html"
            "failed to create services page" "failed to execute services template" with
        | (sActs, .error e) => (dirActs ++ hActs ++ sActs, .error e)
        | (sActs, .ok _) =>
          match fatalPageJob env "html/bydomain.html" "bydomain.html"
              "failed to create bydomain page" "failed to execute bydomain template" with
          | (bActs, .error e) => (dirActs ++ hActs ++ sActs ++ bActs, .error e)
          | (bActs, .ok _) =>
            let dActs := (domains.map (domainJobActions env)).flatten
            let svcActs := (services.map (serviceJobActions env)).flatten
            let pageActs := dirActs ++ hActs ++ sActs ++ bActs ++ dActs ++ svcActs
            match generateSitemap env.website env.walkFiles with
            | .error e => (pageActs, .error ("failed to generate sitemap: " ++ e))
            | .ok _ =>
              match generateRobotsTxt env.website with
              | .error e => (pageActs ++ [.wroteSitemap], .error ("failed to generate robots.txt: " ++ e))
              | .ok _ => (pageActs ++ [.wroteSitemap, .wroteRobots], .ok ())

/-- A raw input record as it comes out of `services.json`: no domain
field, derived fields empty. -/
def svcExample : Service :=
  { Name := "compute.googleapis.com", Title := "Compute Engine"
    Documentation := "", Domain := "", FileName := "" }

/-- Concrete run in which only the home-page `os.Create` call fails. -/
def envHomeFail : RenderEnv :=
  { mkdirOk := fun _ => true
    copyOk := true
    tmplOk := true
    createOk := fun p => ! (p == "html/index.html")
    execOk := fun _ => true
    website := "https://example.com"
    walkFiles := [] }

/-- Concrete run in which only the service-detail template execution
fails. -/
def envSvcExecFail : RenderEnv :=
  { mkdirOk := fun _ => true
    copyOk := true
    tmplOk := true
    createOk := fun _ => true
    execOk := fun p => ! (p == "html/service/compute.googleapis.com.html")
    website := "https://example.com"
    walkFiles := [] }

/-- The final URL of a walked file depends only on its relative path:
`<base>/` for the home page, `<base>/<relPath>` otherwise. -/
def locOf (w rel : String) : String :=
  if rel = "index.html" then w ++ "/" else w ++ "/" ++ rel


theorem toNat_ofNat_of_lt {n : Nat} (h : n < 55296) : (Char.ofNat n).toNat = n := by
  have hv : n.isValidChar := Or.inl h
  rw [Char.ofNat, dif_pos hv]
  simp [Char.ofNatAux, Char.toNat, UInt32.toNat]

theorem toLowerChar_idem (c : Char) : toLowerChar (toLowerChar c) = toLowerChar c := by
  unfold toLowerChar
  by_cases h : 65 ≤ c.toNat ∧ c.toNat ≤ 90
  · rw [if_pos h]
    have h32 : (Char.ofNat (c.toNat + 32)).toNat = c.toNat + 32 := toNat_ofNat_of_lt (by omega)
    rw [if_neg (by rw [h32]; omega)]
  · rw [if_neg h, if_neg h]

theorem toLowerChar_ne_space {c : Char} (h : c ≠ ' ') : toLowerChar c ≠ ' ' := by
  unfold toLowerChar
  by_cases hu : 65 ≤ c.toNat ∧ c.toNat ≤ 90
  · rw [if_pos hu]
    intro hc
    have h32 : (Char.ofNat (c.toNat + 32)).toNat = c.toNat + 32 := toNat_ofNat_of_lt (by omega)
    rw [hc] at h32
    have hsp : (' ').toNat = 32 := rfl
    omega
  · rwa [if_neg hu]

theorem data_eq_imp_eq {a b : String} (h : a.data = b.data) : a = b := by
  cases a
  cases b
  cases h
  rfl

/-- The character map performed by `urlSafe`: space becomes hyphen,
everything else is lowered. -/
theorem urlSafe_data (s : String) :
    (urlSafe s).data = s.data.map fun c => if c = ' ' then '-' else toLowerChar c := by
  show (s.data.map fun c => if c = ' ' then '-' else c).map toLowerChar = _
  rw [List.map_map]
  refine List.map_congr_left fun c _ => ?_
  by_cases h : c = ' ' <;> simp [h, Function.comp]
  decide

theorem urlSafe_char_idem (c : Char) :
    (fun c => if c = ' ' then '-' else toLowerChar c)
      ((fun c => if c = ' ' then '-' else toLowerChar c) c) =
    (fun c => if c = ' ' then '-' else toLowerChar c) c := by
  by_cases h : c = ' '
  · simp only [h, if_pos rfl]
    decide
  · simp only [if_neg h]
    rw [if_neg (toLowerChar_ne_space h), toLowerChar_idem]

theorem urlSafe_idem (s : String) : urlSafe (urlSafe s) = urlSafe s := by
  apply data_eq_imp_eq
  rw [urlSafe_data (urlSafe s), urlSafe_data s, List.map_map]
  exact List.map_congr_left fun c _ => urlSafe_char_idem c

theorem splitDot_cons_dot (rest : List Char) :
    splitDot ('.' :: rest) = [] :: splitDot rest := by
  rw [splitDot, if_pos rfl]

theorem splitDot_cons_ne {c : Char} (hc : c ≠ '.') {rest q : List Char}
    {qs : List (List Char)} (hsp : splitDot rest = q :: qs) :
    splitDot (c :: rest) = (c :: q) :: qs := by
  rw [splitDot, if_neg hc, hsp]

/-- `splitDot` never returns the empty list. -/
theorem splitDot_ne_nil (l : List Char) : splitDot l ≠ [] := by
  induction l with
  | nil => simp [splitDot]
  | cons c rest ih =>
    by_cases hc : c = '.'
    · subst hc; rw [splitDot_cons_dot]; simp
    · rcases hsp : splitDot rest with _ | ⟨q, qs⟩
      · exact absurd hsp ih
      · rw [splitDot_cons_ne hc hsp]; simp

/-- Every segment produced by `splitDot` is dot-free. -/
theorem splitDot_no_dot : ∀ (l : List Char), ∀ p ∈ splitDot l, '.' ∉ p := by
  intro l
  induction l with
  | nil =>
    intro p hp
    rw [splitDot] at hp
    rcases List.mem_cons.mp hp with h | h
    · subst h; simp
    · simp at h
  | cons c rest ih =>
    intro p hp
    by_cases hc : c = '.'
    · subst hc
      rw [splitDot_cons_dot] at hp
      rcases List.mem_cons.mp hp with h | h
      · subst h; simp
      · exact ih p h
    · rcases hsp : splitDot rest with _ | ⟨q, qs⟩
      · exact absurd hsp (splitDot_ne_nil rest)
      · rw [splitDot_cons_ne hc hsp] at hp
        rcases List.mem_cons.mp hp with h | h
        · subst h
          intro hmem
          rcases List.mem_cons.mp hmem with h2 | h2
          · exact hc h2.symm
          · exact ih q (hsp ▸ List.mem_cons_self q qs) h2
        · exact ih p (hsp ▸ List.mem_cons_of_mem q h)

/-- Splitting a dot-free segment returns just that segment. -/
theorem splitDot_of_no_dot : ∀ (p : List Char), '.' ∉ p → splitDot p = [p] := by
  intro p
  induction p with
  | nil => intro _; rfl
  | cons c cs ih =>
    intro hp
    have hc : c ≠ '.' := fun h => hp (h ▸ List.mem_cons_self c cs)
    rw [splitDot, if_neg hc, ih (fun h => hp (List.mem_cons_of_mem c h))]

/-- Splitting a dot-free segment followed by a dot peels off exactly
that segment. -/
theorem splitDot_append_dot : ∀ (p : List Char), '.' ∉ p → ∀ (l : List Char),
    splitDot (p ++ '.' :: l) = p :: splitDot l := by
  intro p
  induction p with
  | nil => intro _ l; rw [List.nil_append, splitDot, if_pos rfl]
  | cons c cs ih =>
    intro hp l
    have hc : c ≠ '.' := fun h => hp (h ▸ List.mem_cons_self c cs)
    rw [List.cons_append, splitDot, if_neg hc,
      ih (fun h => hp (List.mem_cons_of_mem c h)) l]

/-- `splitDot` inverts `joinDot` on nonempty lists of dot-free
segments: joining with `.` and splitting again recovers the segments. -/
theorem splitDot_joinDot : ∀ (ps : List (List Char)), ps ≠ [] →
    (∀ p ∈ ps, '.' ∉ p) → splitDot (joinDot ps) = ps := by
  intro ps
  induction ps with
  | nil => intro h; exact absurd rfl h
  | cons p rest ih =>
    intro _ hfree
    rcases rest with _ | ⟨q, qs⟩
    · exact splitDot_of_no_dot p (hfree p (List.mem_cons_self p []))
    · have hrest : splitDot (joinDot (q :: qs)) = q :: qs :=
        ih (by simp) (fun r hr => hfree r (List.mem_cons_of_mem p hr))
      show splitDot (p ++ '.' :: joinDot (q :: qs)) = p :: q :: qs
      rw [splitDot_append_dot p (hfree p (List.mem_cons_self p _)), hrest]

/-- Claim C2: for every record whose domain field is empty, the
normalizer sets `Domain` to the last two dot-separated segments of the
name (joined with a dot; splitting the derived domain recovers exactly
those two segments), and to the sentinel `"misc"` when the name has
fewer than two segments (including the empty name); records with a
non-empty domain keep it unchanged. -/
theorem C2_normalizer_domain (svc : Service) :
    (svc.Domain = "" →
      (2 ≤ (splitDot svc.Name.data).length →
        (normalizeService svc).Domain =
          ⟨joinDot ((splitDot svc.Name.data).drop ((splitDot svc.Name.data).length - 2))⟩ ∧
        splitDot ((normalizeService svc).Domain).data =
          (splitDot svc.Name.data).drop ((splitDot svc.Name.data).length - 2)) ∧
      ((splitDot svc.Name.data).length < 2 → (normalizeService svc).Domain = "misc")) ∧
    (svc.Domain ≠ "" → (normalizeService svc).Domain = svc.Domain) := by
  constructor
  · intro hd
    have hdom : (normalizeService svc).Domain = deriveDomain svc.Name := by
      simp [normalizeService, hd]
    constructor
    · intro hlen
      have hcond : (splitDot svc.Name.data).length > 1 := hlen
      have hder : deriveDomain svc.Name =
          ⟨joinDot ((splitDot svc.Name.data).drop ((splitDot svc.Name.data).length - 2))⟩ := by
        rw [deriveDomain]
        simp only [if_pos hcond]
      refine ⟨hdom.trans hder, ?_⟩
      rw [hdom, hder]
      show splitDot (joinDot _) = _
      apply splitDot_joinDot
      · have : ((splitDot svc.Name.data).drop ((splitDot svc.Name.data).length - 2)).length =
            (splitDot svc.Name.data).length - ((splitDot svc.Name.data).length - 2) :=
          List.length_drop _ _
        intro hnil
        rw [hnil] at this
        simp at this
        omega
      · intro p hp
        exact splitDot_no_dot svc.Name.data p (List.mem_of_mem_drop hp)
    · intro hlt
      rw [hdom, deriveDomain]
      simp only [if_neg (by omega : ¬ (splitDot svc.Name.data).length > 1)]
  · intro hd
    simp [normalizeService, hd]

/-- Witness for C2: `compute.googleapis.com` with an empty domain field
derives domain `googleapis.com`, the last two segments of the name. -/
theorem C2_normalizer_domain_witness :
    (normalizeService (Service.mk "compute.googleapis.com" "Compute Engine" "" "" "")).Domain =
      "googleapis.com" := by
  have h :=
    ((C2_normalizer_domain (Service.mk "compute.googleapis.com" "Compute Engine" "" "" "")).1
      rfl).1 (by decide)
  rw [h.1]
  decide

/-- Claim C6: for every record, the derived `FileName` is the name with
every `/` replaced by `-` (character-wise: `/` becomes `-`, all other
characters are unchanged), and the service-detail page is planned at
path `service/<FileName>.html` under the output root. -/
theorem C6_filename_and_path (svc : Service) :
    ((normalizeService svc).FileName).data =
      (svc.Name.data.map fun c => if c = '/' then '-' else c) ∧
    servicePagePath (normalizeService svc) =
      "html/" ++ "service/" ++ (normalizeService svc).FileName ++ ".html" :=
  ⟨rfl, rfl⟩

/-- Claim C7 (counterexample to the claim as stated): the claim asserts
`urlSafe` is not idempotent, but no input distinguishes
`urlSafe (urlSafe x)` from `urlSafe x`. -/
theorem C7_not_idempotent_counterexample :
    ¬ ∃ x : String, urlSafe (urlSafe x) ≠ urlSafe x := by
  intro hx
  rcases hx with ⟨x, hx⟩
  exact hx (urlSafe_idem x)

/-- Claim C7 (amended): `urlSafe` lowercases its input and replaces
each space with a hyphen, leaving all other characters unchanged; it is
deterministic, and it is idempotent: `urlSafe (urlSafe x) = urlSafe x`
for every `x`. -/
theorem C7_slug_properties (s : String) :
    (urlSafe s).data = (s.data.map fun c => if c = ' ' then '-' else toLowerChar c) ∧
    urlSafe s = urlSafe s ∧
    urlSafe (urlSafe s) = urlSafe s :=
  ⟨urlSafe_data s, rfl, urlSafe_idem s⟩

theorem lookupGroup_nil (d : String) : lookupGroup [] d = [] := rfl

theorem lookupGroup_cons_pos {k : String} {vs : List Service}
    {rest : List (String × List Service)} {d : String} (h : k = d) :
    lookupGroup ((k, vs) :: rest) d = vs := by
  unfold lookupGroup
  rw [List.find?_cons_of_pos _ (by simpa using h)]

theorem lookupGroup_cons_neg {k : String} {vs : List Service}
    {rest : List (String × List Service)} {d : String} (h : ¬ k = d) :
    lookupGroup ((k, vs) :: rest) d = lookupGroup rest d := by
  unfold lookupGroup
  rw [List.find?_cons_of_neg _ (by simpa using h)]

theorem lookupGroup_insertAppend (m : List (String × List Service)) (d' : String)
    (svc : Service) (d : String) :
    lookupGroup (insertAppend m d' svc) d =
      if d = d' then lookupGroup m d ++ [svc] else lookupGroup m d := by
  induction m with
  | nil =>
    by_cases h : d = d'
    · rw [if_pos h]
      show lookupGroup [(d', [svc])] d = []  ++ [svc]
      rw [lookupGroup_cons_pos h.symm]
      simp
    · rw [if_neg h]
      show lookupGroup [(d', [svc])] d = lookupGroup [] d
      rw [lookupGroup_cons_neg (fun hh => h hh.symm)]
  | cons kv rest ih =>
    rcases kv with ⟨k, vs⟩
    by_cases hk : k = d'
    · subst hk
      rw [insertAppend, if_pos rfl]
      by_cases hd : d = k
      · rw [if_pos hd, lookupGroup_cons_pos hd.symm, lookupGroup_cons_pos hd.symm]
      · rw [if_neg hd, lookupGroup_cons_neg (fun hh => hd hh.symm),
          lookupGroup_cons_neg (fun hh => hd hh.symm)]
    · rw [insertAppend, if_neg hk]
      by_cases hd : k = d
      · have hne : ¬ d = d' := fun hh => hk (hd.trans hh)
        rw [if_neg hne, lookupGroup_cons_pos hd, lookupGroup_cons_pos hd]
      · rw [lookupGroup_cons_neg hd, lookupGroup_cons_neg hd, ih]

theorem lookupGroup_foldl (l : List Service) :
    ∀ (m : List (String × List Service)) (d : String),
    lookupGroup (l.foldl (fun m svc => insertAppend m svc.Domain svc) m) d =
      lookupGroup m d ++ l.filter (fun svc => svc.Domain = d) := by
  induction l with
  | nil => intro m d; simp
  | cons svc rest ih =>
    intro m d
    rw [List.foldl_cons, ih]
    rw [lookupGroup_insertAppend]
    by_cases h : d = svc.Domain
    · rw [if_pos h]
      have : (svc.Domain = d) = True := by simp [h.symm]
      simp [List.filter_cons, h.symm]
    · rw [if_neg h]
      have : ¬ (svc.Domain = d) := fun hh => h hh.symm
      simp [List.filter_cons, this]

/-- The Go map read at key `d` is exactly the input records whose
domain is `d`, in input order. -/
theorem lookupGroup_domainMapOf (services : List Service) (d : String) :
    lookupGroup (domainMapOf services) d = services.filter (fun svc => svc.Domain = d) := by
  rw [domainMapOf, lookupGroup_foldl]
  rfl

theorem flatten_snd_insertAppend (m : List (String × List Service)) (d : String)
    (svc : Service) :
    List.Perm ((insertAppend m d svc).map Prod.snd).flatten
      ((m.map Prod.snd).flatten ++ [svc]) := by
  induction m with
  | nil => simp [insertAppend]
  | cons kv rest ih =>
    rcases kv with ⟨k, vs⟩
    by_cases hk : k = d
    · rw [insertAppend, if_pos hk]
      simp only [List.map_cons, List.flatten_cons]
      rw [List.append_assoc, List.append_assoc]
      exact (List.perm_append_left_iff vs).mpr List.perm_append_comm
    · rw [insertAppend, if_neg hk]
      simp only [List.map_cons, List.flatten_cons]
      refine List.Perm.trans ((List.perm_append_left_iff vs).mpr ih) ?_
      rw [List.append_assoc]

theorem flatten_snd_foldl (l : List Service) :
    ∀ (m : List (String × List Service)),
    List.Perm (((l.foldl (fun m svc => insertAppend m svc.Domain svc) m)).map Prod.snd).flatten
      ((m.map Prod.snd).flatten ++ l) := by
  induction l with
  | nil => intro m; simp
  | cons svc rest ih =>
    intro m
    rw [List.foldl_cons]
    refine List.Perm.trans (ih _) ?_
    refine List.Perm.trans
      (List.Perm.append_right rest (flatten_snd_insertAppend m svc.Domain svc)) ?_
    rw [List.append_assoc]
    simp

/-- The groups exactly exhaust the input: flattening all group member
lists is a permutation of the input record list. -/
theorem flatten_snd_domainMapOf (services : List Service) :
    List.Perm ((domainMapOf services).map Prod.snd).flatten services := by
  have h := flatten_snd_foldl services []
  simpa using h

theorem fst_insertAppend (m : List (String × List Service)) (d : String) (svc : Service) :
    (insertAppend m d svc).map Prod.fst =
      if d ∈ m.map Prod.fst then m.map Prod.fst else m.map Prod.fst ++ [d] := by
  induction m with
  | nil => simp [insertAppend]
  | cons kv rest ih =>
    rcases kv with ⟨k, vs⟩
    by_cases hk : k = d
    · subst hk
      rw [insertAppend, if_pos rfl]
      simp
    · rw [insertAppend, if_neg hk]
      simp only [List.map_cons, List.mem_cons]
      by_cases hd : d ∈ rest.map Prod.fst
      · rw [ih, if_pos hd, if_pos (Or.inr hd)]
      · rw [ih, if_neg hd, if_neg (by rintro (h | h); exact hk h.symm; exact hd h)]
        simp

theorem mem_fst_foldl (l : List Service) :
    ∀ (m : List (String × List Service)) (d : String),
    (d ∈ ((l.foldl (fun m svc => insertAppend m svc.Domain svc) m)).map Prod.fst) ↔
      (d ∈ m.map Prod.fst ∨ d ∈ l.map Service.Domain) := by
  induction l with
  | nil => intro m d; simp
  | cons svc rest ih =>
    intro m d
    rw [List.foldl_cons, ih]
    rw [fst_insertAppend]
    by_cases h : svc.Domain ∈ m.map Prod.fst
    · rw [if_pos h]
      simp only [List.map_cons, List.mem_cons]
      constructor
      · rintro (hm | hr)
        · exact Or.inl hm
        · exact Or.inr (Or.inr hr)
      · rintro (hm | hd | hr)
        · exact Or.inl hm
        · exact Or.inl (hd ▸ h)
        · exact Or.inr hr
    · rw [if_neg h]
      simp only [List.mem_append, List.mem_singleton, List.map_cons, List.mem_cons]
      tauto

theorem nodup_fst_foldl (l : List Service) :
    ∀ (m : List (String × List Service)),
    (m.map Prod.fst).Nodup →
    (((l.foldl (fun m svc => insertAppend m svc.Domain svc) m)).map Prod.fst).Nodup := by
  induction l with
  | nil => intro m hm; simpa using hm
  | cons svc rest ih =>
    intro m hm
    rw [List.foldl_cons]
    apply ih
    rw [fst_insertAppend]
    by_cases h : svc.Domain ∈ m.map Prod.fst
    · rwa [if_pos h]
    · rw [if_neg h]
      exact List.Nodup.append hm (List.nodup_singleton _) (by simpa using h)

/-- The keys of the built domain map are distinct. -/
theorem nodup_fst_domainMapOf (services : List Service) :
    ((domainMapOf services).map Prod.fst).Nodup :=
  nodup_fst_foldl services [] (by simp)

/-- Key membership: a label is a key of the domain map exactly when
some input record has it as domain. -/
theorem mem_fst_domainMapOf (services : List Service) (d : String) :
    d ∈ (domainMapOf services).map Prod.fst ↔ d ∈ services.map Service.Domain := by
  have h := mem_fst_foldl services [] d
  simpa using h

/-- Claim C3: domain grouping is a partition.  The group at key `d` is
exactly the input records with domain `d` in first-seen input order
(it equals the order-preserving filter of the input); every record is a
member of the group keyed by its own domain; members of a group all
carry that group's domain; flattening all groups is a permutation of
the input (no record duplicated or lost); group keys are distinct. -/
theorem C3_grouping_partition (services : List Service) :
    (∀ d, lookupGroup (domainMapOf services) d =
      services.filter (fun svc => svc.Domain = d)) ∧
    (∀ svc ∈ services, svc ∈ lookupGroup (domainMapOf services) svc.Domain) ∧
    (∀ d, ∀ svc ∈ lookupGroup (domainMapOf services) d, svc.Domain = d) ∧
    List.Perm ((domainMapOf services).map Prod.snd).flatten services ∧
    ((domainMapOf services).map Prod.fst).Nodup := by
  refine ⟨lookupGroup_domainMapOf services, ?_, ?_,
    flatten_snd_domainMapOf services, nodup_fst_domainMapOf services⟩
  · intro svc hs
    rw [lookupGroup_domainMapOf]
    exact List.mem_filter.mpr ⟨hs, by simp⟩
  · intro d svc hs
    rw [lookupGroup_domainMapOf] at hs
    have h2 := (List.mem_filter.mp hs).2
    simpa using h2

/-- Witness for C3 at a two-record input sharing one domain. -/
theorem C3_grouping_partition_witness :
    (Service.mk "compute.googleapis.com" "Compute Engine" "" "googleapis.com" "") ∈
      lookupGroup
        (domainMapOf
          [Service.mk "compute.googleapis.com" "Compute Engine" "" "googleapis.com" "",
            Service.mk "storage.googleapis.com" "Cloud Storage" "" "googleapis.com" ""])
        "googleapis.com" :=
  (C3_grouping_partition
    [Service.mk "compute.googleapis.com" "Compute Engine" "" "googleapis.com" "",
      Service.mk "storage.googleapis.com" "Cloud Storage" "" "googleapis.com" ""]).2.1
    (Service.mk "compute.googleapis.com" "Compute Engine" "" "googleapis.com" "")
    (by decide)

/-- Claim C5: the sorted domain-label list is invariant under
permutation of the input records: reordering the input does not change
the ordering of domain summaries on the domain-index page. -/
theorem C5_domains_perm_invariant (l₁ l₂ : List Service)
    (h : List.Perm l₁ l₂) : domainsOf l₁ = domainsOf l₂ := by
  have k₁ := nodup_fst_domainMapOf l₁
  have k₂ := nodup_fst_domainMapOf l₂
  have hmem : ∀ d, d ∈ (domainMapOf l₁).map Prod.fst ↔ d ∈ (domainMapOf l₂).map Prod.fst := by
    intro d
    rw [mem_fst_domainMapOf, mem_fst_domainMapOf]
    exact (h.map Service.Domain).mem_iff
  have hperm : List.Perm ((domainMapOf l₁).map Prod.fst) ((domainMapOf l₂).map Prod.fst) :=
    (List.perm_ext_iff_of_nodup k₁ k₂).mpr hmem
  unfold domainsOf
  refine List.eq_of_perm_of_sorted ?_
    (List.sorted_insertionSort (· ≤ ·) ((domainMapOf l₁).map Prod.fst))
    (List.sorted_insertionSort (· ≤ ·) ((domainMapOf l₂).map Prod.fst))
  exact ((List.perm_insertionSort _ _).trans hperm).trans (List.perm_insertionSort _ _).symm

/-- Witness for C5: swapping two records leaves the sorted domain list
unchanged. -/
theorem C5_domains_perm_invariant_witness :
    domainsOf
      [Service.mk "compute.googleapis.com" "Compute Engine" "" "googleapis.com" "",
        Service.mk "run.cloud.goog" "Cloud Run" "" "cloud.goog" ""] =
    domainsOf
      [Service.mk "run.cloud.goog" "Cloud Run" "" "cloud.goog" "",
        Service.mk "compute.googleapis.com" "Compute Engine" "" "googleapis.com" ""] :=
  C5_domains_perm_invariant _ _ (by decide)

theorem sitemapEntry_Loc (w rel t : String) : (sitemapEntry w rel t).Loc = locOf w rel := by
  by_cases h : rel = "index.html" <;> simp [sitemapEntry, locOf, h]

theorem sitemapEntry_LastMod (w rel t : String) : (sitemapEntry w rel t).LastMod = t := by
  by_cases h : rel = "index.html" <;> simp [sitemapEntry, h]

theorem isHtmlFile_ne_empty {rel : String} (h : isHtmlFile rel = true) : rel ≠ "" := by
  intro he
  subst he
  simp [isHtmlFile] at h

theorem locOf_inj {w r₁ r₂ : String} (h₁ : isHtmlFile r₁ = true) (h₂ : isHtmlFile r₂ = true)
    (h : locOf w r₁ = locOf w r₂) : r₁ = r₂ := by
  unfold locOf at h
  by_cases e₁ : r₁ = "index.html" <;> by_cases e₂ : r₂ = "index.html"
  · exact e₁.trans e₂.symm
  · rw [if_pos e₁, if_neg e₂] at h
    have hd := congrArg String.data h
    simp only [String.data_append] at hd
    have h2 : (w.data ++ ("/" : String).data) ++ ([] : List Char) =
        (w.data ++ ("/" : String).data) ++ r₂.data := by
      rw [List.append_nil]
      exact hd
    have hr : r₂ = "" := data_eq_imp_eq (List.append_cancel_left h2).symm
    exact absurd hr (isHtmlFile_ne_empty h₂)
  · rw [if_neg e₁, if_pos e₂] at h
    have hd := congrArg String.data h
    simp only [String.data_append] at hd
    have h2 : (w.data ++ ("/" : String).data) ++ ([] : List Char) =
        (w.data ++ ("/" : String).data) ++ r₁.data := by
      rw [List.append_nil]
      exact hd.symm
    have hr : r₁ = "" := data_eq_imp_eq (List.append_cancel_left h2).symm
    exact absurd hr (isHtmlFile_ne_empty h₁)
  · rw [if_neg e₁, if_neg e₂] at h
    have hd := congrArg String.data h
    simp only [String.data_append] at hd
    exact data_eq_imp_eq (List.append_cancel_left hd)

/-- With distinct walked paths, the locations of the built entries are
distinct. -/
theorem nodup_entry_locs (w : String) (files : List (String × String))
    (hnd : (files.map Prod.fst).Nodup) :
    (((files.filter (fun f => isHtmlFile f.1)).map
      (fun f => sitemapEntry w f.1 f.2)).map SitemapURL.Loc).Nodup := by
  rw [List.map_map]
  have heq : ((files.filter (fun f => isHtmlFile f.1)).map (SitemapURL.Loc ∘ fun f => sitemapEntry w f.1 f.2)) =
      ((files.filter (fun f => isHtmlFile f.1)).map Prod.fst).map (locOf w) := by
    rw [List.map_map]
    exact List.map_congr_left fun f _ => sitemapEntry_Loc w f.1 f.2
  rw [heq]
  have hsub : ((files.filter (fun f => isHtmlFile f.1)).map Prod.fst).Sublist (files.map Prod.fst) :=
    (List.filter_sublist files).map Prod.fst
  refine List.Nodup.map_on ?_ (hnd.sublist hsub)
  intro x hx y hy hxy
  have hxh : isHtmlFile x = true := by
    rcases List.mem_map.mp hx with ⟨f, hf, rfl⟩
    exact (List.mem_filter.mp hf).2
  have hyh : isHtmlFile y = true := by
    rcases List.mem_map.mp hy with ⟨f, hf, rfl⟩
    exact (List.mem_filter.mp hf).2
  exact locOf_inj hxh hyh hxy

/-- Entry membership: every walked `.html` file contributes its entry. -/
theorem mem_sitemapURLs {w rel t : String} {files : List (String × String)}
    (hf : (rel, t) ∈ files) (hh : isHtmlFile rel = true) :
    sitemapEntry w rel t ∈ sitemapURLs w files := by
  have hm : sitemapEntry w rel t ∈
      (files.filter (fun f => isHtmlFile f.1)).map (fun f => sitemapEntry w f.1 f.2) :=
    List.mem_map_of_mem _ (List.mem_filter.mpr ⟨hf, hh⟩)
  exact (List.perm_insertionSort _ _).mem_iff.mpr hm

/-- The sorted output is fully determined by the set of walked files:
any traversal order yields the same sitemap. -/
theorem sitemapURLs_perm_invariant (w : String) (files files' : List (String × String))
    (hnd : (files.map Prod.fst).Nodup) (hp : List.Perm files files') :
    sitemapURLs w files = sitemapURLs w files' := by
  have he : List.Perm
      ((files.filter (fun f => isHtmlFile f.1)).map (fun f => sitemapEntry w f.1 f.2))
      ((files'.filter (fun f => isHtmlFile f.1)).map (fun f => sitemapEntry w f.1 f.2)) :=
    (hp.filter _).map _
  have hsp : List.Perm (sitemapURLs w files) (sitemapURLs w files') :=
    ((List.perm_insertionSort _ _).trans he).trans (List.perm_insertionSort _ _).symm
  haveI : IsTotal SitemapURL (fun u v => u.Loc ≤ v.Loc) := ⟨fun a b => le_total a.Loc b.Loc⟩
  haveI : IsTrans SitemapURL (fun u v => u.Loc ≤ v.Loc) := ⟨fun _ _ _ hab hbc => le_trans hab hbc⟩
  have hsorted₁ : List.Sorted (fun u v : SitemapURL => u.Loc ≤ v.Loc) (sitemapURLs w files) :=
    List.sorted_insertionSort _ _
  have hsorted₂ : List.Sorted (fun u v : SitemapURL => u.Loc ≤ v.Loc) (sitemapURLs w files') :=
    List.sorted_insertionSort _ _
  have hnd' : (files'.map Prod.fst).Nodup := ((hp.map Prod.fst).nodup_iff).mp hnd
  have hlocs₁ : ((sitemapURLs w files).map SitemapURL.Loc).Nodup :=
    (((List.perm_insertionSort _ _).map SitemapURL.Loc).nodup_iff).mpr (nodup_entry_locs w files hnd)
  have hlocs₂ : ((sitemapURLs w files').map SitemapURL.Loc).Nodup :=
    (((List.perm_insertionSort _ _).map SitemapURL.Loc).nodup_iff).mpr (nodup_entry_locs w files' hnd')
  have hstrict₁ : List.Pairwise (fun u v : SitemapURL => u.Loc < v.Loc) (sitemapURLs w files) :=
    (hsorted₁.and (List.pairwise_map.mp hlocs₁)).imp fun h => lt_of_le_of_ne h.1 h.2
  have hstrict₂ : List.Pairwise (fun u v : SitemapURL => u.Loc < v.Loc) (sitemapURLs w files') :=
    (hsorted₂.and (List.pairwise_map.mp hlocs₂)).imp fun h => lt_of_le_of_ne h.1 h.2
  haveI : IsAntisymm SitemapURL (fun u v => u.Loc < v.Loc) :=
    ⟨fun a b h1 h2 => absurd h2 (lt_asymm h1)⟩
  exact List.eq_of_perm_of_sorted hsp hstrict₁ hstrict₂

theorem head?_dropWhile_not {p : Char → Bool} : ∀ (l : List Char) {c : Char},
    ((l.dropWhile p).head? = some c) → p c = false := by
  intro l
  induction l with
  | nil => intro c h; simp [List.dropWhile] at h
  | cons a rest ih =>
    intro c h
    by_cases hp : p a
    · rw [List.dropWhile_cons_of_pos hp] at h
      exact ih h
    · rw [List.dropWhile_cons_of_neg hp] at h
      simp at h
      subst h
      exact Bool.eq_false_iff.mpr hp

/-- Trailing-slash stripping leaves no trailing slash. -/
theorem trimRightSlashes_no_trailing (w : String) :
    (trimRightSlashes w).data.getLast? ≠ some '/' := by
  show ((w.data.reverse.dropWhile (fun c => c = '/')).reverse).getLast? ≠ some '/'
  intro h
  rw [List.getLast?_reverse] at h
  have hp := head?_dropWhile_not (w.data.reverse) h
  simp at hp

/-- Claim C4: the sitemap has exactly one entry per walked `.html` file
(it is a permutation of the per-file entries, so its size equals the
number of `.html` files and nothing else contributes); it is sorted by
final URL; the sorted output is invariant under the traversal order of
the walk; and the top-level `index.html` contributes exactly
`<base>/` — base URL plus a single trailing slash, with no `index.html`
suffix. -/
theorem C4_sitemap_contents (website : String) (files : List (String × String))
    (hw : website ≠ "") (hnd : (files.map Prod.fst).Nodup) :
    generateSitemap website files =
      Except.ok (sitemapURLs (trimRightSlashes website) files) ∧
    List.Perm (sitemapURLs (trimRightSlashes website) files)
      ((files.filter (fun f => isHtmlFile f.1)).map
        (fun f => sitemapEntry (trimRightSlashes website) f.1 f.2)) ∧
    (sitemapURLs (trimRightSlashes website) files).length =
      (files.filter (fun f => isHtmlFile f.1)).length ∧
    List.Sorted (fun u v : SitemapURL => u.Loc ≤ v.Loc)
      (sitemapURLs (trimRightSlashes website) files) ∧
    (∀ files', List.Perm files files' →
      sitemapURLs (trimRightSlashes website) files =
        sitemapURLs (trimRightSlashes website) files') ∧
    (∀ t, ("index.html", t) ∈ files →
      SitemapURL.mk (trimRightSlashes website ++ "/") t ∈
        sitemapURLs (trimRightSlashes website) files) := by
  haveI : IsTotal SitemapURL (fun u v => u.Loc ≤ v.Loc) := ⟨fun a b => le_total a.Loc b.Loc⟩
  haveI : IsTrans SitemapURL (fun u v => u.Loc ≤ v.Loc) := ⟨fun _ _ _ hab hbc => le_trans hab hbc⟩
  refine ⟨?_, List.perm_insertionSort _ _, ?_, List.sorted_insertionSort _ _,
    fun files' hp => sitemapURLs_perm_invariant _ _ _ hnd hp, ?_⟩
  · rw [generateSitemap, if_neg hw]
  · rw [sitemapURLs, (List.perm_insertionSort _ _).length_eq, List.length_map]
  · intro t hf
    have hm := mem_sitemapURLs (w := trimRightSlashes website) hf
      (by decide : isHtmlFile "index.html" = true)
    have he : sitemapEntry (trimRightSlashes website) "index.html" t =
        SitemapURL.mk (trimRightSlashes website ++ "/") t := by
      simp [sitemapEntry]
    rwa [he] at hm

/-- Witness for C4: with two files walked in some order, the home page
contributes exactly the base URL with a trailing slash. -/
theorem C4_sitemap_contents_witness :
    SitemapURL.mk (trimRightSlashes "https://example.com" ++ "/") "2025-01-01" ∈
      sitemapURLs (trimRightSlashes "https://example.com")
        [("services.html", "2025-01-02"), ("index.html", "2025-01-01")] :=
  (C4_sitemap_contents "https://example.com"
    [("services.html", "2025-01-02"), ("index.html", "2025-01-01")]
    (by decide) (by decide)).2.2.2.2.2 "2025-01-01" (by decide)

/-- Claim C8: sitemap generation and robots generation each fail with
an error — and produce no output — whenever the `WEBSITE` base-URL
value is empty (which is what `os.Getenv` returns when it is absent). -/
theorem C8_missing_website_fatal (website : String) (files : List (String × String))
    (hw : website = "") :
    generateSitemap website files =
      Except.error "environment variable 'WEBSITE' is not set" ∧
    generateRobotsTxt website =
      Except.error "environment variable 'WEBSITE' is not set" := by
  subst hw
  exact ⟨rfl, rfl⟩

/-- Witness for C8 at the empty base URL. -/
theorem C8_missing_website_fatal_witness :
    generateSitemap "" [("index.html", "2025-01-01")] =
      Except.error "environment variable 'WEBSITE' is not set" :=
  (C8_missing_website_fatal "" [("index.html", "2025-01-01")] rfl).1

/-- Claim C10: the base URL is stripped of all trailing slashes before
any URL is constructed, so base values differing only in trailing
slashes produce identical sitemap and robots output; every non-home
sitemap URL is the stripped base, one slash, then the relative path;
and the robots sitemap reference is exactly `<base>/sitemap.xml`. -/
theorem C10_base_url_trailing_slashes :
    (∀ w : String, (trimRightSlashes w).data.getLast? ≠ some '/') ∧
    (∀ w₁ w₂ : String, ∀ files : List (String × String),
      trimRightSlashes w₁ = trimRightSlashes w₂ → w₁ ≠ "" → w₂ ≠ "" →
      generateSitemap w₁ files = generateSitemap w₂ files ∧
      generateRobotsTxt w₁ = generateRobotsTxt w₂) ∧
    (∀ (w rel t : String) (files : List (String × String)),
      (rel, t) ∈ files → isHtmlFile rel = true → rel ≠ "index.html" →
      SitemapURL.mk (trimRightSlashes w ++ "/" ++ rel) t ∈
        sitemapURLs (trimRightSlashes w) files) ∧
    (∀ w : String, w ≠ "" →
      generateRobotsTxt w =
        Except.ok (RobotsTxt.mk (trimRightSlashes w ++ "/sitemap.xml") ["/snippets/"])) := by
  refine ⟨trimRightSlashes_no_trailing, ?_, ?_, ?_⟩
  · intro w₁ w₂ files htrim h₁ h₂
    constructor
    · rw [generateSitemap, generateSitemap, if_neg h₁, if_neg h₂, htrim]
    · rw [generateRobotsTxt, generateRobotsTxt, if_neg h₁, if_neg h₂, htrim]
  · intro w rel t files hf hh hne
    have hm := mem_sitemapURLs (w := trimRightSlashes w) hf hh
    have he : sitemapEntry (trimRightSlashes w) rel t =
        SitemapURL.mk (trimRightSlashes w ++ "/" ++ rel) t := by
      simp [sitemapEntry, hne]
    rwa [he] at hm
  · intro w hw
    rw [generateRobotsTxt, if_neg hw]

/-- Witness for C10: one and two trailing slashes yield identical
robots output, with the sitemap reference free of doubled slashes. -/
theorem C10_base_url_trailing_slashes_witness :
    generateRobotsTxt "https://example.com/" = generateRobotsTxt "https://example.com//" :=
  (C10_base_url_trailing_slashes.2.1 "https://example.com/" "https://example.com//" []
    (by decide) (by decide) (by decide)).2

/-- Claim C9: when reading or unmarshalling `services.json` fails,
`generateHTML` returns the corresponding error immediately: the action
trace is empty — no directory is created and no output file is written
or modified. -/
theorem C9_input_errors_abort (env : RenderEnv) (e : GenError) :
    generateHTML env (Except.error e) = ([], Except.error (genErrorMsg e)) := rfl

/-- Every iteration of the domain-detail loop leaves a trace: a
successful render, or a logged create/execute failure. -/
theorem domainJobActions_trace (env : RenderEnv) (d : String) :
    Action.rendered (domainPagePath d) "domain.html" ∈ domainJobActions env d ∨
    Action.logError ("Failed to create domain page for " ++ d) ∈ domainJobActions env d ∨
    Action.logError ("Failed to execute domain template for " ++ d) ∈ domainJobActions env d := by
  unfold domainJobActions
  by_cases h1 : env.createOk (domainPagePath d) = true <;>
    by_cases h2 : env.execOk (domainPagePath d) = true <;>
      simp [h1, h2]

/-- Every iteration of the service-detail loop leaves a trace: a
successful render, or a logged create/execute failure. -/
theorem serviceJobActions_trace (env : RenderEnv) (svc : Service) :
    Action.rendered (servicePagePath svc) "service.html" ∈ serviceJobActions env svc ∨
    Action.logError ("Failed to create service page for " ++ svc.Name) ∈ serviceJobActions env svc ∨
    Action.logError ("Failed to execute service template for " ++ svc.Name) ∈ serviceJobActions env svc := by
  unfold serviceJobActions
  by_cases h1 : env.createOk (servicePagePath svc) = true <;>
    by_cases h2 : env.execOk (servicePagePath svc) = true <;>
      simp [h1, h2]

/-- Claim C1 (amended): the continue-on-error policy holds for the
per-domain and per-service detail jobs only — when all earlier fatal
steps succeed, every domain job and every service job leaves a trace
(either a successful render or a logged create/execute failure), no
matter which of them fail, and the run still completes successfully.
Render failures of the home page, the full listing, or the domain
index instead abort generation (shown by the counterexample). -/
theorem C1_render_error_policy (env : RenderEnv) (raw : List Service)
    (h1 : env.mkdirOk "html" = true) (h2 : env.mkdirOk "html/domain" = true)
    (h3 : env.mkdirOk "html/service" = true) (hc : env.copyOk = true)
    (ht : env.tmplOk = true)
    (hi1 : env.createOk "html/index.html" = true) (hi2 : env.execOk "html/index.html" = true)
    (hs1 : env.createOk "html/services.html" = true) (hs2 : env.execOk "html/services.html" = true)
    (hb1 : env.createOk "html/bydomain.html" = true) (hb2 : env.execOk "html/bydomain.html" = true)
    (hw : env.website ≠ "") :
    (generateHTML env (Except.ok raw)).2 = Except.ok () ∧
    (∀ d ∈ domainsOf (raw.map normalizeService),
      Action.rendered (domainPagePath d) "domain.html" ∈ (generateHTML env (Except.ok raw)).1 ∨
      Action.logError ("Failed to create domain page for " ++ d) ∈ (generateHTML env (Except.ok raw)).1 ∨
      Action.logError ("Failed to execute domain template for " ++ d) ∈ (generateHTML env (Except.ok raw)).1) ∧
    (∀ svc ∈ raw.map normalizeService,
      Action.rendered (servicePagePath svc) "service.html" ∈ (generateHTML env (Except.ok raw)).1 ∨
      Action.logError ("Failed to create service page for " ++ svc.Name) ∈ (generateHTML env (Except.ok raw)).1 ∨
      Action.logError ("Failed to execute service template for " ++ svc.Name) ∈ (generateHTML env (Except.ok raw)).1) := by
  refine ⟨?_, ?_, ?_⟩
  · simp [generateHTML, h1, h2, h3, hc, ht, fatalPageJob, hi1, hi2, hs1, hs2, hb1, hb2,
      generateSitemap, generateRobotsTxt, hw]
  · intro d hd
    rcases domainJobActions_trace env d with h | h | h
    · refine Or.inl ?_
      simp [generateHTML, h1, h2, h3, hc, ht, fatalPageJob, hi1, hi2, hs1, hs2, hb1, hb2,
        generateSitemap, generateRobotsTxt, hw]
      exact Or.inl ⟨d, hd, h⟩
    · refine Or.inr (Or.inl ?_)
      simp [generateHTML, h1, h2, h3, hc, ht, fatalPageJob, hi1, hi2, hs1, hs2, hb1, hb2,
        generateSitemap, generateRobotsTxt, hw]
      exact Or.inl ⟨d, hd, h⟩
    · refine Or.inr (Or.inr ?_)
      simp [generateHTML, h1, h2, h3, hc, ht, fatalPageJob, hi1, hi2, hs1, hs2, hb1, hb2,
        generateSitemap, generateRobotsTxt, hw]
      exact Or.inl ⟨d, hd, h⟩
  · intro svc hsvc
    rcases List.mem_map.mp hsvc with ⟨a, ha, rfl⟩
    rcases serviceJobActions_trace env (normalizeService a) with h | h | h
    · refine Or.inl ?_
      simp [generateHTML, h1, h2, h3, hc, ht, fatalPageJob, hi1, hi2, hs1, hs2, hb1, hb2,
        generateSitemap, generateRobotsTxt, hw]
      exact Or.inr ⟨a, ha, h⟩
    · refine Or.inr (Or.inl ?_)
      simp [generateHTML, h1, h2, h3, hc, ht, fatalPageJob, hi1, hi2, hs1, hs2, hb1, hb2,
        generateSitemap, generateRobotsTxt, hw]
      exact Or.inr ⟨a, ha, h⟩
    · refine Or.inr (Or.inr ?_)
      simp [generateHTML, h1, h2, h3, hc, ht, fatalPageJob, hi1, hi2, hs1, hs2, hb1, hb2,
        generateSitemap, generateRobotsTxt, hw]
      exact Or.inr ⟨a, ha, h⟩

/-- Claim C1 (counterexample): in a run where only the home-page
`os.Create` fails (every other oracle succeeds, one service record,
base URL set), `generateHTML` returns the home-page error and the
pipeline never reaches the service-detail job: no render and no logged
failure for it appears in the trace.  A home-page render failure
therefore aborts the whole batch, refuting the claim for the home-page
job category. -/
theorem C1_counterexample_home_abort :
    (generateHTML envHomeFail (Except.ok [svcExample])).2 =
      Except.error "failed to create home page" ∧
    Action.rendered (servicePagePath (normalizeService svcExample)) "service.html" ∉
      (generateHTML envHomeFail (Except.ok [svcExample])).1 ∧
    Action.logError ("Failed to create service page for " ++ svcExample.Name) ∉
      (generateHTML envHomeFail (Except.ok [svcExample])).1 := by
  refine ⟨rfl, by decide, by decide⟩

/-- Witness for C1: when only the service-detail template execution
fails, the run still completes successfully and the failure is logged
in the trace. -/
theorem C1_render_error_policy_witness :
    (generateHTML envSvcExecFail (Except.ok [svcExample])).2 = Except.ok () ∧
    (Action.rendered (servicePagePath (normalizeService svcExample)) "service.html" ∈
        (generateHTML envSvcExecFail (Except.ok [svcExample])).1 ∨
      Action.logError ("Failed to create service page for " ++ (normalizeService svcExample).Name) ∈
        (generateHTML envSvcExecFail (Except.ok [svcExample])).1 ∨
      Action.logError ("Failed to execute service template for " ++ (normalizeService svcExample).Name) ∈
        (generateHTML envSvcExecFail (Except.ok [svcExample])).1) :=
  ⟨(C1_render_error_policy envSvcExecFail [svcExample] (by decide) (by decide) (by decide)
      (by decide) (by decide) (by decide) (by decide) (by decide) (by decide) (by decide)
      (by decide) (by decide)).1,
    (C1_render_error_policy envSvcExecFail [svcExample] (by decide) (by decide) (by decide)
      (by decide) (by decide) (by decide) (by decide) (by decide) (by decide) (by decide)
      (by decide) (by decide)).2.2 (normalizeService svcExample) (by decide)⟩

end GcpServiceCatalog
